import Mathlib

/-
Verification of the semantic-retrieval core of gamechanger-ml:
the sentence-index builder and two-stage retriever
(gamechangerml/src/search/sent_transformer/model.py) and the
training-data miner (gamechangerml/scripts/make_training_data.py).

Modelling conventions:
* A paragraph text is represented by its list of space-delimited chunks
  (the result of Python `text.split(' ')`).  Every operation the code
  performs on a text — `' '.join(text.split(' ')[:150])`,
  `' '.join(text.split(' ')[:400])`, storage — acts through that list, and
  `' '.join` / `.split(' ')` with the same separator round-trip exactly,
  so the representation is lossless.  A chunk may itself contain
  non-space whitespace (tabs, newlines), exactly as in Python.
* A pandas text cell that is not a string (NaN) is `none`; calling
  `.split` on it raises, modelled by `Except.error`.
* Python dicts are association lists with last-write-wins assignment
  (`pySet`) and `{**a, **b}` merge (`pyMerge`).
* The external similarity provider is a function from a query and the
  candidate texts to a ranked list of (index, score) pairs, which may
  fail (`Except`).  The external retriever used by the miner is likewise
  an injected function.
* `random.sample(keys, n)` is modelled by an arbitrary selection
  function `pick : List String → Nat → List String`; the RNG is stateful
  in Python, so each of the three split calls gets its own function.
-/

namespace GC

/-- Token list: a Python string represented by its split-on-single-space chunks. -/
abbrev Tok := List String

/-- One row of the sentence-index dataframe (`retriever.data`):
a `paragraph_id` and the paragraph text (`none` models a NaN cell). -/
structure Row where
  paragraph_id : String
  text : Option Tok
  deriving Repr, DecidableEq

/-- Product of a natural number and a rational, written with the core
constructors so that it evaluates by kernel reduction. -/
def natMulRat (n : Nat) (q : ℚ) : ℚ :=
  mkRat (n * q.num) q.den

/-- Python `round` on a rational: round half to even (banker's rounding),
written with the core constructors so that it evaluates by kernel
reduction. -/
def pyRound (q : ℚ) : ℤ :=
  let f := q.num.fdiv q.den
  let r := mkRat (q.num - f * (q.den : ℤ)) q.den
  if r < mkRat 1 2 then f
  else if mkRat 1 2 < r then f + 1
  else if f % 2 = 0 then f else f + 1

/-- Python dict read `d[k]`, as an option (a `none` models a KeyError). -/
def pyGet {β : Type} (d : List (String × β)) (k : String) : Option β :=
  (d.find? (fun p => p.1 == k)).map (fun p => p.2)

/-- Python dict assignment `d[k] = v`: overwrite in place if the key
exists, otherwise append. -/
def pySet {β : Type} (d : List (String × β)) (k : String) (v : β) : List (String × β) :=
  if (d.find? (fun p => p.1 == k)).isSome then
    d.map (fun p => if p.1 == k then (k, v) else p)
  else d ++ [(k, v)]

/-- Python `{**a, **b}`: insert every entry of `b` into `a`, `b` winning. -/
def pyMerge {β : Type} (a b : List (String × β)) : List (String × β) :=
  b.foldl (fun d p => pySet d p.1 p.2) a

/-- Key list of a modelled Python dict. -/
def dictKeys {β : Type} (d : List (String × β)) : List String :=
  d.map Prod.fst

/-- Key set of a modelled Python dict. -/
def keysF {β : Type} (d : List (String × β)) : Finset String :=
  (dictKeys d).toFinset

/-- Whether `sep` is an initial segment of `l` (used for Python
`str.split(sep)`). -/
def leadsWith : List Char → List Char → Bool
  | [], _ => true
  | _ :: _, [] => false
  | a :: as, b :: bs => a == b && leadsWith as bs

/-- Python `s.split(sep)[0]`: the characters before the first occurrence of
`sep`, the whole string when `sep` does not occur. -/
def cutBefore (sep : List Char) : List Char → List Char
  | [] => []
  | c :: rest => if leadsWith sep (c :: rest) then [] else c :: cutBefore sep rest

/-- Drop leading whitespace (one side of Python `str.strip()`). -/
def dropWs : List Char → List Char
  | [] => []
  | c :: r => if c.isWhitespace then dropWs r else c :: r

/-- Python `str.strip()`: drop whitespace on both ends. -/
def pyStrip (l : List Char) : List Char :=
  dropWs (dropWs l.reverse).reverse

/-- Python `s.upper()` over characters. -/
def pyUpperChars (l : List Char) : List Char :=
  l.map Char.toUpper

/-- From make_training_data.py: `check_no_match(expected_id, par_id)` —
strip the `.pdf` suffix from the paragraph id, uppercase and strip both
sides, and compare with the uppercased, stripped expected id; `false`
when they match (`.strip().lstrip()` in the source strips no more than
`.strip()`). -/
def check_no_match (expected_id par_id : String) : Bool :=
  if pyStrip (pyUpperChars (cutBefore ".pdf".toList par_id.toList))
      == pyStrip (pyUpperChars expected_id.toList) then false
  else true

/-- Document id of a dataframe row, as computed in make_training_data.py:
`data['paragraph_id'].apply(lambda x: x.split('.pdf')[0])`. -/
def rowDocId (r : Row) : String :=
  String.mk (cutBefore ".pdf".toList r.paragraph_id.toList)

/-- One reranked record (`{"score": .., "id": .., "text": ..}`); `score = none`
models the placeholder string `'na'` used for a single unreranked candidate. -/
structure RankRec (α : Type) where
  score : Option ℚ
  id : String
  text : α
  deriving Repr, DecidableEq

/-- Similarity-provider boundary: `(query, texts) -> [(index, score)]`, fallible. -/
abbrev Sim (α : Type) := String → List α → Except Unit (List (Nat × ℚ))

/-- Body of `SimilarityRanker.re_rank` after the provider returned its
pairs: `ids[idx]` / `texts[idx]` lookups raise IndexError out of range. -/
def rankPairs {α : Type} (texts : List α) (ids : List String) :
    List (Nat × ℚ) → Except Unit (List (RankRec α))
  | [] => Except.ok []
  | pr :: rest =>
    match ids[pr.1]?, texts[pr.1]? with
    | some i, some t => (rankPairs texts ids rest).map (fun out => ⟨some pr.2, i, t⟩ :: out)
    | _, _ => Except.error ()

/-- From model.py: `SimilarityRanker.re_rank(query, texts, ids)` — call the
similarity provider and build one `{score, id, text}` record per returned pair. -/
def re_rank {α : Type} (sim : Sim α) (query : String) (texts : List α) (ids : List String) :
    Except Unit (List (RankRec α)) :=
  (sim query texts).bind (fun pairs => rankPairs texts ids pairs)

/-- Candidate loop of `get_best_paragraphs`: collect `(paragraph_id,
text truncated to 150 chunks)` per selected row, raising on the first NaN
text cell. -/
def collectCands : List Row → Except Unit (List (String × Tok))
  | [] => Except.ok []
  | r :: rest =>
    match r.text with
    | none => Except.error ()
    | some t => (collectCands rest).map (fun cs => (r.paragraph_id, t.take 150) :: cs)

/-- From make_training_data.py: `get_best_paragraphs` — take (at most 20)
rows of the expected document, truncate each text to its first 150
space-delimited chunks (raising if a text cell is NaN), rerank when
there are at least 2 candidates (a rerank failure is caught and yields
`[]`), pass a single candidate through with an `'na'` score, and return
the first `n_matching` records. -/
def get_best_paragraphs (data : List Row) (query doc_id : String) (sim : Sim Tok)
    (n_matching : Nat) : Except Unit (List (RankRec Tok)) :=
  (collectCands ((data.filter (fun r => rowDocId r == doc_id)).take 20)).map (fun cands =>
    let ids := cands.map Prod.fst
    let pars := cands.map Prod.snd
    let ranked :=
      if 1 < ids.length then
        match re_rank sim query pars ids with
        | Except.ok r => r
        | Except.error _ => []
      else if ids.length == 1 then [⟨none, ids.headI, pars.headI⟩]
      else []
    ranked.take n_matching)

/-- One neutral sample produced by `get_negative_paragraphs`
(`{"query": .., "doc": par_id, "paragraph": .., "label": 0}`). -/
structure NegRec where
  query : String
  doc : String
  paragraph : Tok
  label : Int
  deriving Repr, DecidableEq

/-- Loop body of `get_negative_paragraphs`: for each returned paragraph id,
look its text up in the dataframe (an exception — missing row, NaN text —
aborts the loop, returning the results accumulated so far) and keep it as a
label-0 record when `check_no_match` accepts it. -/
def gnpGo (data : List Row) (query doc_id : String) : List String → List NegRec
  | [] => []
  | parId :: rest =>
    match data.find? (fun r => r.paragraph_id == parId) with
    | none => []
    | some r =>
      match r.text with
      | none => []
      | some t =>
        (if check_no_match doc_id parId then [⟨query, parId, t.take 150, 0⟩] else [])
          ++ gnpGo data query doc_id rest

/-- From make_training_data.py: `get_negative_paragraphs` — run the retriever
(whose result is injected here already evaluated; a retriever failure is
caught and yields `[]`) and filter the candidates through `check_no_match`. -/
def get_negative_paragraphs (data : List Row) (query doc_id : String)
    (retrRes : Except Unit (List String)) : List NegRec :=
  match retrRes with
  | Except.error _ => []
  | Except.ok parIds => gnpGo data query doc_id parIds

/-- A found training example
(`{"query": .., "doc": .., "paragraph": .., "label": ..}`). -/
structure Found where
  query : String
  doc : String
  paragraph : Tok
  label : Int
  deriving Repr, DecidableEq

/-- A not-found side-channel entry (`{"query": .., "doc": .., "label": ..}`). -/
structure NotFound where
  query : String
  doc : String
  label : Int
  deriving Repr, DecidableEq

/-- Inner loop of `collect_matches` over the reranked records: store each
under `uid = i + '_' + match['id']`, truncating the text to 400 chunks. -/
def cmInsert (i query doc : String) (label : Int) (fd : List (String × Found))
    (ms : List (RankRec Tok)) : List (String × Found) :=
  ms.foldl (fun d m => pySet d (i ++ "_" ++ m.id) ⟨query, doc, m.text.take 400, label⟩) fd

/-- Loop of `collect_matches` over one relation's collection ids: the
`collection[k]` read raises a KeyError out of the whole function; a
`get_best_paragraphs` failure records the pair under `i + '_' + k` in the
not-found dict and moves on. -/
def cmDocs (data : List Row) (sim : Sim Tok) (n_matching : Nat)
    (collection : List (String × String)) (label : Int) (i query : String) :
    List String → List (String × Found) → List (String × NotFound) →
    Except Unit (List (String × Found) × List (String × NotFound))
  | [], fd, nf => Except.ok (fd, nf)
  | k :: rest, fd, nf =>
    match pyGet collection k with
    | none => Except.error ()
    | some doc =>
      match get_best_paragraphs data query doc sim n_matching with
      | Except.error _ =>
        cmDocs data sim n_matching collection label i query rest fd
          (pySet nf (i ++ "_" ++ k) ⟨query, doc, label⟩)
      | Except.ok matching =>
        cmDocs data sim n_matching collection label i query rest
          (cmInsert i query doc label fd matching) nf

/-- Outer loop of `collect_matches` over the relations: the `queries[i]`
read raises a KeyError out of the whole function. -/
def cmRels (data : List Row) (sim : Sim Tok) (n_matching : Nat)
    (queries collection : List (String × String)) (label : Int) :
    List (String × List String) → List (String × Found) → List (String × NotFound) →
    Except Unit (List (String × Found) × List (String × NotFound))
  | [], fd, nf => Except.ok (fd, nf)
  | (i, ks) :: rest, fd, nf =>
    match pyGet queries i with
    | none => Except.error ()
    | some query =>
      match cmDocs data sim n_matching collection label i query ks fd nf with
      | Except.error e => Except.error e
      | Except.ok r => cmRels data sim n_matching queries collection label rest r.1 r.2

/-- From make_training_data.py: `collect_matches` — positive / confirmed
negative mining over a relation mapping. -/
def collect_matches (data : List Row) (sim : Sim Tok)
    (relations : List (String × List String)) (queries collection : List (String × String))
    (label : Int) (n_matching : Nat) :
    Except Unit (List (String × Found) × List (String × NotFound)) :=
  cmRels data sim n_matching queries collection label relations [] []

/-- Retriever boundary used by the miner: `(query, n_returns) -> doc ids`, fallible. -/
abbrev Retr := String → Nat → Except Unit (List String)

/-- Loop of `collect_negative_samples` over one relation's collection ids.
Note the source passes the collection id `k` itself — not `collection[k]` —
as the expected doc id to `get_negative_paragraphs`. -/
def cnsDocs (data : List Row) (retr : Retr) (n_returns : Nat)
    (collection : List (String × String)) (i query : String) :
    List String → List (String × Found) → List (String × NotFound) →
    Except Unit (List (String × Found) × List (String × NotFound))
  | [], fd, nf => Except.ok (fd, nf)
  | k :: rest, fd, nf =>
    match pyGet collection k with
    | none => Except.error ()
    | some doc =>
      let nm := get_negative_paragraphs data query k (retr query n_returns)
      cnsDocs data retr n_returns collection i query rest
        (nm.foldl (fun d m => pySet d (i ++ "_" ++ m.doc) ⟨query, doc, m.paragraph.take 400, 0⟩) fd)
        nf

/-- Outer loop of `collect_negative_samples` over the relations. -/
def cnsRels (data : List Row) (retr : Retr) (n_returns : Nat)
    (queries collection : List (String × String)) :
    List (String × List String) → List (String × Found) → List (String × NotFound) →
    Except Unit (List (String × Found) × List (String × NotFound))
  | [], fd, nf => Except.ok (fd, nf)
  | (i, ks) :: rest, fd, nf =>
    match pyGet queries i with
    | none => Except.error ()
    | some query =>
      match cnsDocs data retr n_returns collection i query ks fd nf with
      | Except.error e => Except.error e
      | Except.ok r => cnsRels data retr n_returns queries collection rest r.1 r.2

/-- From make_training_data.py: `collect_negative_samples` — neutral (label 0)
sampling over the union of the correct and incorrect relation mappings. -/
def collect_negative_samples (data : List Row) (retr : Retr) (n_returns : Nat)
    (relations : List (String × List String)) (queries collection : List (String × String)) :
    Except Unit (List (String × Found) × List (String × NotFound)) :=
  cnsRels data retr n_returns queries collection relations [] []

/-- Selection function standing in for one call of `random.sample(keys, n)`. -/
abbrev Pick := List String → Nat → List String

/-- From make_training_data.py: `train_test_split(data, tts_ratio)` —
sample `round(len(data) * tts_ratio)` keys for train, the remaining keys
form the test dict. -/
def train_test_split {β : Type} (pick : Pick) (data : List (String × β)) (frac : ℚ) :
    List (String × β) × List (String × β) :=
  let train_size := (pyRound (natMulRat data.length frac)).toNat
  let train_keys := pick (dictKeys data) train_size
  (data.filter (fun p => train_keys.contains p.1),
   data.filter (fun p => !(train_keys.contains p.1)))

/-- Merged train/test mappings of one mining run. -/
structure SplitOut where
  train : List (String × Found)
  test : List (String × Found)
  deriving Repr, DecidableEq

/-- Split stage of `make_training_data` (lines 365-369): split each per-label
found dict independently, then merge the three train dicts and the three
test dicts. -/
def mtdSplit (pick1 pick2 pick3 : Pick) (cf icf nf : List (String × Found))
    (frac : ℚ) : SplitOut :=
  let ct := train_test_split pick1 cf frac
  let it := train_test_split pick2 icf frac
  let nt := train_test_split pick3 nf frac
  ⟨pyMerge (pyMerge ct.1 it.1) nt.1, pyMerge (pyMerge ct.2 it.2) nt.2⟩

/-- Result of one mining run: merged train/test dicts and the merged
not-found diagnostic dict. -/
structure MtdOut where
  train : List (String × Found)
  test : List (String × Found)
  notfound : List (String × NotFound)
  deriving Repr, DecidableEq

/-- Mining core of `make_training_data`: run the three passes (each pass
failure is caught and logged, leaving its result variables unbound), then
merge the not-found dicts and split/merge the found dicts — the merge
raises a NameError, fatal to the run, when any pass failed. -/
def make_training_data (data : List Row) (sim : Sim Tok) (retr : Retr)
    (n_returns n_matching : Nat) (queries collection : List (String × String))
    (correct incorrect : List (String × List String)) (frac : ℚ)
    (pick1 pick2 pick3 : Pick) : Except Unit MtdOut :=
  match collect_matches data sim correct queries collection 1 n_matching,
        collect_matches data sim incorrect queries collection (-1) n_matching,
        collect_negative_samples data retr n_returns (pyMerge correct incorrect)
          queries collection with
  | Except.ok cr, Except.ok icr, Except.ok nr =>
    let s := mtdSplit pick1 pick2 pick3 cr.1 icr.1 nr.1 frac
    Except.ok ⟨s.train, s.test, pyMerge (pyMerge cr.2 icr.2) nr.2⟩
  | _, _, _ => Except.error ()

/-- A corpus passage handed to the index builder: `(para_id, text, tags)`. -/
structure Passage where
  pid : String
  text : String
  deriving Repr, DecidableEq

/-- The persisted index state written by `SentenceEncoder._index`:
the stacked embedding matrix, the id list file, and the metadata
dataframe of `(text, paragraph_id)` rows. -/
structure Persisted where
  embeddings : List (List ℚ)
  ids : List String
  df : List (String × String)
  deriving Repr, DecidableEq

/-- From model.py: `SentenceEncoder._index(corpus)` — embed the corpus
(one vector and one id per passage, in corpus order), and when a
persisted index exists and `overwrite` is false, stack the old
embeddings before the new ones, append the new ids after the old ids,
and concatenate the dataframes the same way; no deduplication of ids
happens anywhere. -/
def sentIndex (embed : String → List ℚ) (prev : Option Persisted) (overwrite : Bool)
    (corpus : List Passage) : Persisted :=
  let newVecs := corpus.map (fun p => embed p.text)
  let newIds := corpus.map Passage.pid
  let newDf := corpus.map (fun p => (p.text, p.pid))
  match prev, overwrite with
  | some old, false => ⟨old.embeddings ++ newVecs, old.ids ++ newIds, old.df ++ newDf⟩
  | _, _ => ⟨newVecs, newIds, newDf⟩

/-- A sequence of builder invocations against one index location, starting
from no persisted index: each step runs `_index` with its own overwrite
flag and corpus and persists the result. -/
def applyOps (embed : String → List ℚ) (ops : List (Bool × List Passage)) :
    Option Persisted :=
  ops.foldl (fun st op => some (sentIndex embed st op.1 op.2)) none

/-- State of a loaded `SentenceSearcher`: the ANN lookup
(`embedder.search`), the metadata dataframe, the configured `n_returns`,
and the similarity provider.  A dataframe text lookup
`data[data["paragraph_id"] == doc_id]["text"]` yields a pandas Series,
modelled as the list of matching cells. -/
structure Searcher where
  embSearch : String → Nat → List (String × ℚ)
  data : List Row
  n_returns : Nat
  sim : Sim (List (Option Tok))

/-- From model.py: `SentenceSearcher.retrieve_topn(self, query)` — run the
ANN search with `limit=self.n_returns` and resolve each returned id to its
text Series via the dataframe. -/
def retrieve_topn (st : Searcher) (query : String) :
    List (List (Option Tok)) × List String × List ℚ :=
  let retrieved := st.embSearch query st.n_returns
  (retrieved.map (fun pr => (st.data.filter (fun r => r.paragraph_id == pr.1)).map Row.text),
   retrieved.map Prod.fst,
   retrieved.map Prod.snd)

/-- Python positional-call discipline for a bound method with exactly one
positional parameter besides `self`: any other argument count raises a
TypeError. -/
def pyCallUnary {β : Type} (args : Nat) (f : Unit → β) : Except Unit β :=
  if args = 1 then Except.ok (f ()) else Except.error ()

/-- From model.py: `SentenceSearcher.search(self, query)` — the source calls
`self.retrieve_topn(query, self.n_returns)`, i.e. with two positional
arguments, against the one-parameter `retrieve_topn`. -/
def SentenceSearcher_search (st : Searcher) (query : String) :
    Except Unit (List (RankRec (List (Option Tok)))) := do
  let tpl ← pyCallUnary 2 (fun _ => retrieve_topn st query)
  re_rank st.sim query tpl.1 tpl.2.1

/-- Count of maximal non-whitespace runs; the flag records whether the
previous character was inside a word. -/
def wsCountGo : List Char → Bool → Nat
  | [], _ => 0
  | c :: r, inw =>
    if c.isWhitespace then wsCountGo r false
    else (if inw then 0 else 1) + wsCountGo r true

/-- Modelled from the spec wording of C10: the number of
whitespace-delimited tokens (Python `str.split()` with no argument) of a
stored paragraph, i.e. of the space-joined chunk list, for comparison
against the code's split-on-single-space truncation. -/
def specWhitespaceTokenCount (toks : Tok) : Nat :=
  wsCountGo (((toks.map String.toList).intersperse [' ']).flatten) false

/-- Claim C6 (code bug evaluation): `SentenceSearcher.search` passes two
positional arguments (`query`, `self.n_returns`) to `retrieve_topn`, which
accepts only `query`; every call therefore raises a TypeError instead of
returning candidates sorted by the provider's score. -/
theorem claim_C6 : ∀ (st : Searcher) (query : String),
    SentenceSearcher_search st query = Except.error () := by
  intro st query
  rfl

/-- Claim C3: extending an index previously built from corpus `A` with
corpus `B` and `overwrite = false` yields exactly `ids(A) ++ ids(B)`, with
no deduplication — an id occurring in both corpora appears at least twice. -/
theorem claim_C3 : ∀ (embed : String → List ℚ) (A B : List Passage),
    (sentIndex embed (some (sentIndex embed none true A)) false B).ids
        = A.map Passage.pid ++ B.map Passage.pid
    ∧ ∀ p : String, p ∈ A.map Passage.pid → p ∈ B.map Passage.pid →
        2 ≤ ((sentIndex embed (some (sentIndex embed none true A)) false B).ids).count p := by
  intro embed A B
  have hids : (sentIndex embed (some (sentIndex embed none true A)) false B).ids
      = A.map Passage.pid ++ B.map Passage.pid := by
    simp [sentIndex]
  refine ⟨hids, ?_⟩
  intro p hA hB
  rw [hids, List.count_append]
  have h1 : (A.map Passage.pid).count p ≠ 0 := by
    simpa [List.count_eq_zero] using hA
  have h2 : (B.map Passage.pid).count p ≠ 0 := by
    simpa [List.count_eq_zero] using hB
  omega

/-- Claim C3 witness: one passage indexed, then the same passage indexed
again without overwrite — the id appears twice. -/
theorem claim_C3_witness :
    (sentIndex (fun _ => [(1:ℚ)]) (some (sentIndex (fun _ => [(1:ℚ)]) none true [⟨"p1", "t"⟩]))
        false [⟨"p1", "t"⟩]).ids = ["p1", "p1"]
    ∧ 2 ≤ ((sentIndex (fun _ => [(1:ℚ)]) (some (sentIndex (fun _ => [(1:ℚ)]) none true [⟨"p1", "t"⟩]))
        false [⟨"p1", "t"⟩]).ids).count "p1" := by
  refine ⟨rfl, ?_⟩
  exact (claim_C3 (fun _ => [(1:ℚ)]) [⟨"p1", "t"⟩] [⟨"p1", "t"⟩]).2 "p1"
    (by decide) (by decide)

/-- All three persisted components of an index state are the images of one
passage list. -/
def IndexInv (embed : String → List ℚ) (s : Persisted) : Prop :=
  ∃ ps : List Passage,
    s.embeddings = ps.map (fun p => embed p.text) ∧
    s.ids = ps.map Passage.pid ∧
    s.df = ps.map (fun p => (p.text, p.pid))

theorem sentIndex_inv (embed : String → List ℚ) (prev : Option Persisted) (ow : Bool)
    (corpus : List Passage) (h : ∀ s, prev = some s → IndexInv embed s) :
    IndexInv embed (sentIndex embed prev ow corpus) := by
  cases prev with
  | none => exact ⟨corpus, rfl, rfl, rfl⟩
  | some old =>
    cases ow with
    | true => exact ⟨corpus, rfl, rfl, rfl⟩
    | false =>
      obtain ⟨ps0, h1, h2, h3⟩ := h old rfl
      exact ⟨ps0 ++ corpus, by simp [sentIndex, h1], by simp [sentIndex, h2],
        by simp [sentIndex, h3]⟩

theorem applyOps_inv (embed : String → List ℚ) (ops : List (Bool × List Passage)) :
    ∀ (st : Option Persisted), (∀ s, st = some s → IndexInv embed s) →
    ∀ s, ops.foldl (fun st0 op => some (sentIndex embed st0 op.1 op.2)) st = some s →
    IndexInv embed s := by
  induction ops with
  | nil =>
    intro st h s hs
    exact h s hs
  | cons op rest ih =>
    intro st h s hs
    refine ih (some (sentIndex embed st op.1 op.2)) ?_ s hs
    intro s2 hs2
    have hs3 : sentIndex embed st op.1 op.2 = s2 := by
      injection hs2
    rw [← hs3]
    exact sentIndex_inv embed st op.1 op.2 h

/-- Claim C4: after any sequence of build or extend operations, the three
persisted components have equal length, and row `i` of each comes from the
same passage (all three are images of one passage list). -/
theorem claim_C4 : ∀ (embed : String → List ℚ) (ops : List (Bool × List Passage))
    (s : Persisted), applyOps embed ops = some s →
    ∃ ps : List Passage,
      s.embeddings = ps.map (fun p => embed p.text) ∧
      s.ids = ps.map Passage.pid ∧
      s.df = ps.map (fun p => (p.text, p.pid)) ∧
      s.embeddings.length = s.ids.length ∧
      s.ids.length = s.df.length := by
  intro embed ops s h
  obtain ⟨ps, h1, h2, h3⟩ :=
    applyOps_inv embed ops none (by intro s0 h0; cases h0) s h
  exact ⟨ps, h1, h2, h3, by simp [h1, h2], by simp [h2, h3]⟩

/-- Claim C4 witness: a build followed by an extend, evaluated concretely. -/
theorem claim_C4_witness :
    applyOps (fun _ => [(1:ℚ)]) [(true, [⟨"p1", "t1"⟩]), (false, [⟨"p2", "t2"⟩])]
      = some ⟨[[(1:ℚ)], [(1:ℚ)]], ["p1", "p2"], [("t1", "p1"), ("t2", "p2")]⟩
    ∧ ∃ ps : List Passage,
      ([[(1:ℚ)], [(1:ℚ)]] : List (List ℚ)) = ps.map (fun p => (fun _ => [(1:ℚ)]) p.text) ∧
      (["p1", "p2"] : List String) = ps.map Passage.pid ∧
      ([("t1", "p1"), ("t2", "p2")] : List (String × String)) = ps.map (fun p => (p.text, p.pid)) ∧
      ([[(1:ℚ)], [(1:ℚ)]] : List (List ℚ)).length = (["p1", "p2"] : List String).length ∧
      (["p1", "p2"] : List String).length = ([("t1", "p1"), ("t2", "p2")] : List (String × String)).length := by
  refine ⟨rfl, ?_⟩
  have h := claim_C4 (fun _ => [(1:ℚ)]) [(true, [⟨"p1", "t1"⟩]), (false, [⟨"p2", "t2"⟩])]
    ⟨[[(1:ℚ)], [(1:ℚ)]], ["p1", "p2"], [("t1", "p1"), ("t2", "p2")]⟩ rfl
  exact h

/-- Claim C9: when fewer than 2 candidate paragraphs reach the reranking
step of `get_best_paragraphs`, no rerank call is made (the similarity
provider is universally quantified and absent from the result): one
candidate is returned as-is with the `'na'` placeholder score, zero
candidates yield an empty result. -/
theorem claim_C9 : ∀ (data : List Row) (query doc_id : String) (sim : Sim Tok) (n : Nat),
    1 ≤ n →
    (((data.filter (fun r => rowDocId r == doc_id)).take 20) = [] →
      get_best_paragraphs data query doc_id sim n = Except.ok [])
    ∧ (∀ (r0 : Row) (t : Tok),
        ((data.filter (fun r => rowDocId r == doc_id)).take 20) = [r0] →
        r0.text = some t →
        get_best_paragraphs data query doc_id sim n
          = Except.ok [⟨none, r0.paragraph_id, t.take 150⟩]) := by
  intro data query doc_id sim n hn
  constructor
  · intro hsel
    simp [get_best_paragraphs, hsel, collectCands, Except.map]
  · intro r0 t hsel ht
    cases n with
    | zero => omega
    | succ m =>
      simp [get_best_paragraphs, hsel, ht, collectCands, Except.map]

/-- Claim C9 witness: a one-candidate document and an absent document. -/
theorem claim_C9_witness :
    get_best_paragraphs [⟨"DOC1.pdf_0", some ["hello", "world"]⟩] "q" "DOC1"
      (fun _ _ => Except.error ()) 1
      = Except.ok [⟨none, "DOC1.pdf_0", ["hello", "world"]⟩]
    ∧ get_best_paragraphs [⟨"DOC1.pdf_0", some ["hello", "world"]⟩] "q" "NONE"
      (fun _ _ => Except.error ()) 1 = Except.ok [] := by
  constructor
  · exact (claim_C9 [⟨"DOC1.pdf_0", some ["hello", "world"]⟩] "q" "DOC1"
      (fun _ _ => Except.error ()) 1 (by decide)).2 ⟨"DOC1.pdf_0", some ["hello", "world"]⟩
      ["hello", "world"] rfl rfl
  · exact (claim_C9 [⟨"DOC1.pdf_0", some ["hello", "world"]⟩] "q" "NONE"
      (fun _ _ => Except.error ()) 1 (by decide)).1 rfl

/-- Claim C2 (code bug evaluation): `collect_negative_samples` passes the
collection id `k` (here `"c1"`) — not the expected document id
`collection[k]` (here `"DOC1"`) — to `get_negative_paragraphs`, so a
retrieved paragraph of the expected document itself survives
`check_no_match` and is stored as a label-0 example whose resolved
document id equals the expected document id (case-insensitively, after
stripping). -/
theorem claim_C2 :
    collect_negative_samples [⟨"DOC1.pdf_0", some ["hello"]⟩]
      (fun _ _ => Except.ok ["DOC1.pdf_0"]) 20 [("q1", ["c1"])] [("q1", "cat")] [("c1", "DOC1")]
      = Except.ok ([("q1_DOC1.pdf_0", ⟨"cat", "DOC1", ["hello"], 0⟩)], [])
    ∧ pyStrip (pyUpperChars (cutBefore ".pdf".toList "DOC1.pdf_0".toList))
        = pyStrip (pyUpperChars "DOC1".toList) := by
  exact ⟨rfl, rfl⟩

/-- Claim C7 counterexample: two candidate paragraphs exist for the pair
and the rerank call fails, yet the pair is recorded in neither the found
nor the not-found dictionary — the failure is swallowed inside
`get_best_paragraphs`, refuting the claim that a rerank failure records
the pair in the not-found side-channel. -/
theorem claim_C7_counterexample :
    collect_matches [⟨"DOC1.pdf_0", some ["a"]⟩, ⟨"DOC1.pdf_1", some ["b"]⟩]
      (fun _ _ => Except.error ()) [("q1", ["c1"])] [("q1", "cat")] [("c1", "DOC1")] 1 3
      = Except.ok ([], [])
    ∧ (([⟨"DOC1.pdf_0", some ["a"]⟩, ⟨"DOC1.pdf_1", some ["b"]⟩].filter
        (fun r => rowDocId r == "DOC1")).take 20).length = 2 := by
  exact ⟨rfl, rfl⟩

/-- Claim C7 amended: when gathering the candidate paragraphs for a pair
fails (raising out of `get_best_paragraphs`, e.g. on a NaN text cell), the
pair is recorded under its composite id in the not-found dictionary and
contributes nothing to the found dictionary, and mining continues with the
remaining pairs; a rerank failure is caught inside `get_best_paragraphs`
and yields no candidates, so such a pair lands in neither dictionary. -/
theorem claim_C7 : ∀ (data : List Row) (sim : Sim Tok) (lab : Int) (nm : Nat)
    (i k i2 k2 q d q2 d2 : String) (ms : List (RankRec Tok)),
    i ≠ i2 → k ≠ k2 →
    get_best_paragraphs data q d sim nm = Except.error () →
    get_best_paragraphs data q2 d2 sim nm = Except.ok ms →
    collect_matches data sim [(i, [k]), (i2, [k2])] [(i, q), (i2, q2)] [(k, d), (k2, d2)] lab nm
      = Except.ok (cmInsert i2 q2 d2 lab [] ms, [(i ++ "_" ++ k, ⟨q, d, lab⟩)]) := by
  intro data sim lab nm i k i2 k2 q d q2 d2 ms hii hkk h1 h2
  have hbii : (i == i2) = false := beq_eq_false_iff_ne.mpr hii
  have hbkk : (k == k2) = false := beq_eq_false_iff_ne.mpr hkk
  simp [collect_matches, cmRels, cmDocs, pyGet, List.find?, hbii, hbkk, h1, h2, pySet]

/-- Claim C7 witness: a pair whose paragraph text is NaN lands in the
not-found dictionary while a later pair is still mined. -/
theorem claim_C7_witness :
    collect_matches [⟨"DOC1.pdf_0", none⟩, ⟨"DOC2.pdf_0", some ["b"]⟩]
      (fun _ _ => Except.ok []) [("q1", ["c1"]), ("q2", ["c2"])]
      [("q1", "cat"), ("q2", "dog")] [("c1", "DOC1"), ("c2", "DOC2")] 1 1
      = Except.ok ([("q2_DOC2.pdf_0", ⟨"dog", "DOC2", ["b"], 1⟩)], [("q1_c1", ⟨"cat", "DOC1", 1⟩)]) := by
  exact claim_C7 [⟨"DOC1.pdf_0", none⟩, ⟨"DOC2.pdf_0", some ["b"]⟩] (fun _ _ => Except.ok [])
    1 1 "q1" "c1" "q2" "c2" "cat" "DOC1" "dog" "DOC2" [⟨none, "DOC2.pdf_0", ["b"]⟩]
    (by decide) (by decide) rfl rfl

/-- Claim C8 counterexample: a correct-relation entry references query id
`q1` absent from `queries`; the whole mining run returns an error instead
of skipping the entry and completing. -/
theorem claim_C8_counterexample :
    make_training_data [] (fun _ _ => Except.ok []) (fun _ _ => Except.ok []) 20 3
      [] [] [("q1", ["c1"])] [] (mkRat 1 2) (fun ks n => ks.take n) (fun ks n => ks.take n)
      (fun ks n => ks.take n) = Except.error () := by
  rfl

/-- An entry of a relation mapping that references a query id absent from
`queries` or some collection id absent from `collection`. -/
def danglingEntry (queries collection : List (String × String))
    (e : String × List String) : Prop :=
  pyGet queries e.1 = none ∨ ∃ k ∈ e.2, pyGet collection k = none

theorem cmDocs_err (data : List Row) (sim : Sim Tok) (nm : Nat)
    (collection : List (String × String)) (lab : Int) (i q : String) :
    ∀ (ks : List String) (fd : List (String × Found)) (nf : List (String × NotFound)),
    (∃ k ∈ ks, pyGet collection k = none) →
    cmDocs data sim nm collection lab i q ks fd nf = Except.error () := by
  intro ks
  induction ks with
  | nil =>
    intro fd nf hex
    rcases hex with ⟨k, hk, _⟩
    cases hk
  | cons k0 rest ih =>
    intro fd nf hex
    rw [cmDocs]
    split
    · rfl
    · rename_i doc hdoc
      have hrest : ∃ k ∈ rest, pyGet collection k = none := by
        rcases hex with ⟨k, hk, hkn⟩
        rcases List.mem_cons.mp hk with rfl | hk2
        · rw [hdoc] at hkn
          cases hkn
        · exact ⟨k, hk2, hkn⟩
      split
      · exact ih _ _ hrest
      · exact ih _ _ hrest

theorem cmRels_err (data : List Row) (sim : Sim Tok) (nm : Nat)
    (queries collection : List (String × String)) (lab : Int) :
    ∀ (rels : List (String × List String)) (fd : List (String × Found))
    (nf : List (String × NotFound)),
    (∃ e ∈ rels, danglingEntry queries collection e) →
    cmRels data sim nm queries collection lab rels fd nf = Except.error () := by
  intro rels
  induction rels with
  | nil =>
    intro fd nf hex
    rcases hex with ⟨e, he, _⟩
    cases he
  | cons e0 rest ih =>
    intro fd nf hex
    rcases e0 with ⟨i0, ks0⟩
    rw [cmRels]
    split
    · rfl
    · rename_i q hq
      split
      · rfl
      · rename_i r hr
        refine ih r.1 r.2 ?_
        rcases hex with ⟨e, he, hd⟩
        rcases List.mem_cons.mp he with rfl | he2
        · rcases hd with hd1 | ⟨k, hk, hkn⟩
          · have hd2 : pyGet queries i0 = none := hd1
            rw [hq] at hd2
            cases hd2
          · have herr := cmDocs_err data sim nm collection lab i0 q ks0 fd nf ⟨k, hk, hkn⟩
            rw [herr] at hr
            cases hr
        · exact ⟨e, he2, hd⟩

theorem cnsDocs_err (data : List Row) (retr : Retr) (nr : Nat)
    (collection : List (String × String)) (i q : String) :
    ∀ (ks : List String) (fd : List (String × Found)) (nf : List (String × NotFound)),
    (∃ k ∈ ks, pyGet collection k = none) →
    cnsDocs data retr nr collection i q ks fd nf = Except.error () := by
  intro ks
  induction ks with
  | nil =>
    intro fd nf hex
    rcases hex with ⟨k, hk, _⟩
    cases hk
  | cons k0 rest ih =>
    intro fd nf hex
    rw [cnsDocs]
    split
    · rfl
    · rename_i doc hdoc
      refine ih _ _ ?_
      rcases hex with ⟨k, hk, hkn⟩
      rcases List.mem_cons.mp hk with rfl | hk2
      · rw [hdoc] at hkn
        cases hkn
      · exact ⟨k, hk2, hkn⟩

theorem cnsRels_err (data : List Row) (retr : Retr) (nr : Nat)
    (queries collection : List (String × String)) :
    ∀ (rels : List (String × List String)) (fd : List (String × Found))
    (nf : List (String × NotFound)),
    (∃ e ∈ rels, danglingEntry queries collection e) →
    cnsRels data retr nr queries collection rels fd nf = Except.error () := by
  intro rels
  induction rels with
  | nil =>
    intro fd nf hex
    rcases hex with ⟨e, he, _⟩
    cases he
  | cons e0 rest ih =>
    intro fd nf hex
    rcases e0 with ⟨i0, ks0⟩
    rw [cnsRels]
    split
    · rfl
    · rename_i q hq
      split
      · rfl
      · rename_i r hr
        refine ih r.1 r.2 ?_
        rcases hex with ⟨e, he, hd⟩
        rcases List.mem_cons.mp he with rfl | he2
        · rcases hd with hd1 | ⟨k, hk, hkn⟩
          · have hd2 : pyGet queries i0 = none := hd1
            rw [hq] at hd2
            cases hd2
          · have herr := cnsDocs_err data retr nr collection i0 q ks0 fd nf ⟨k, hk, hkn⟩
            rw [herr] at hr
            cases hr
        · exact ⟨e, he2, hd⟩

/-- Claim C8 amended: an entry — anywhere in `correct` or `incorrect` —
referencing a query id absent from `queries` or a collection id absent
from `collection` raises a KeyError out of the whole
`collect_matches` / `collect_negative_samples` pass (the lookups are
outside the per-entry handlers, so nothing is skipped), and
`make_training_data`, which catches and logs the pass failure but then
reads the pass's unbound result when merging, fails instead of
completing. -/
theorem claim_C8 (data : List Row) (sim : Sim Tok) (retr : Retr) (nr nm : Nat)
    (queries collection : List (String × String))
    (correct incorrect : List (String × List String)) (frac : ℚ) (p1 p2 p3 : Pick)
    (h : (∃ e ∈ correct, danglingEntry queries collection e)
      ∨ ∃ e ∈ incorrect, danglingEntry queries collection e) :
    ((∃ e ∈ correct, danglingEntry queries collection e) →
      collect_matches data sim correct queries collection 1 nm = Except.error ())
    ∧ ((∃ e ∈ incorrect, danglingEntry queries collection e) →
      collect_matches data sim incorrect queries collection (-1) nm = Except.error ())
    ∧ (∀ rels : List (String × List String), (∃ e ∈ rels, danglingEntry queries collection e) →
      collect_negative_samples data retr nr rels queries collection = Except.error ())
    ∧ make_training_data data sim retr nr nm queries collection correct incorrect frac
        p1 p2 p3 = Except.error () := by
  have hcm : ∀ (rels : List (String × List String)) (lab : Int),
      (∃ e ∈ rels, danglingEntry queries collection e) →
      collect_matches data sim rels queries collection lab nm = Except.error () := by
    intro rels lab hex
    exact cmRels_err data sim nm queries collection lab rels [] [] hex
  have hcns : ∀ rels : List (String × List String),
      (∃ e ∈ rels, danglingEntry queries collection e) →
      collect_negative_samples data retr nr rels queries collection = Except.error () := by
    intro rels hex
    exact cnsRels_err data retr nr queries collection rels [] [] hex
  refine ⟨fun hx => hcm correct 1 hx, fun hx => hcm incorrect (-1) hx, hcns, ?_⟩
  rcases h with hc | hic
  · have e1 := hcm correct 1 hc
    cases h2 : collect_matches data sim incorrect queries collection (-1) nm with
    | error e =>
      cases h3 : collect_negative_samples data retr nr (pyMerge correct incorrect)
          queries collection <;> simp [make_training_data, e1, h2, h3]
    | ok r =>
      cases h3 : collect_negative_samples data retr nr (pyMerge correct incorrect)
          queries collection <;> simp [make_training_data, e1, h2, h3]
  · have e2 := hcm incorrect (-1) hic
    cases h1 : collect_matches data sim correct queries collection 1 nm with
    | error e =>
      cases h3 : collect_negative_samples data retr nr (pyMerge correct incorrect)
          queries collection <;> simp [make_training_data, h1, e2, h3]
    | ok r =>
      cases h3 : collect_negative_samples data retr nr (pyMerge correct incorrect)
          queries collection <;> simp [make_training_data, h1, e2, h3]

/-- Claim C8 witness: an incorrect-relation entry whose query id resolves
but whose collection id `c1` is absent from the collection mapping; both
affected passes abort and the whole run fails. -/
theorem claim_C8_witness :
    ((∃ e ∈ ([] : List (String × List String)),
        danglingEntry [("q1", "cat")] [] e) →
      collect_matches [] (fun _ _ => Except.ok []) [] [("q1", "cat")] [] 1 3
        = Except.error ())
    ∧ ((∃ e ∈ [("q1", ["c1"])], danglingEntry [("q1", "cat")] [] e) →
      collect_matches [] (fun _ _ => Except.ok []) [("q1", ["c1"])] [("q1", "cat")] [] (-1) 3
        = Except.error ())
    ∧ (∀ rels : List (String × List String),
        (∃ e ∈ rels, danglingEntry [("q1", "cat")] [] e) →
      collect_negative_samples [] (fun _ _ => Except.ok []) 20 rels [("q1", "cat")] []
        = Except.error ())
    ∧ make_training_data [] (fun _ _ => Except.ok []) (fun _ _ => Except.ok []) 20 3
        [("q1", "cat")] [] [] [("q1", ["c1"])] (mkRat 1 2) (fun ks n => ks.take n)
        (fun ks n => ks.take n) (fun ks n => ks.take n) = Except.error () := by
  exact claim_C8 [] (fun _ _ => Except.ok []) (fun _ _ => Except.ok []) 20 3
    [("q1", "cat")] [] [] [("q1", ["c1"])] (mkRat 1 2) (fun ks n => ks.take n)
    (fun ks n => ks.take n) (fun ks n => ks.take n)
    (Or.inr ⟨("q1", ["c1"]), List.mem_singleton_self _,
      Or.inr ⟨"c1", List.mem_singleton_self _, rfl⟩⟩)

/-- Claim C1 counterexample: the three per-label found dicts may share a
key (possible because positive mining and neutral sampling can emit the
same `query_id` + `paragraph_id` composite); with admissible
`random.sample` outcomes the shared key `"u"` lands in the merged train
mapping from one label and in the merged test mapping from another, so
the merged train and test key sets are not disjoint. -/
theorem claim_C1_counterexample :
    "u" ∈ dictKeys (mtdSplit (fun ks n => ks.take n) (fun ks n => ks.take n)
        (fun ks n => ks.reverse.take n)
        [("u", ⟨"q", "d", [], 1⟩), ("v", ⟨"q", "d", [], 1⟩)] []
        [("u", ⟨"q", "d", [], 0⟩), ("w", ⟨"q", "d", [], 0⟩)] (mkRat 1 2)).train
    ∧ "u" ∈ dictKeys (mtdSplit (fun ks n => ks.take n) (fun ks n => ks.take n)
        (fun ks n => ks.reverse.take n)
        [("u", ⟨"q", "d", [], 1⟩), ("v", ⟨"q", "d", [], 1⟩)] []
        [("u", ⟨"q", "d", [], 0⟩), ("w", ⟨"q", "d", [], 0⟩)] (mkRat 1 2)).test := by
  exact ⟨by decide, by decide⟩

/-- The stored paragraph of C10's counterexample: 151 single-character
words joined by tabs — a single space-delimited chunk. -/
def c10text : String := String.mk ((List.replicate 150 ['x', '\t']).flatten ++ ['x'])

set_option maxRecDepth 4000 in
/-- Claim C10 counterexample: the code truncates on single spaces
(`split(' ')`), not whitespace; a stored positive example whose paragraph
is one space-delimited chunk containing 151 tab-separated words has more
than 150 whitespace-delimited tokens. -/
theorem claim_C10_counterexample :
    collect_matches [⟨"DOC1.pdf_0", some [c10text]⟩]
      (fun _ _ => Except.ok []) [("q1", ["c1"])] [("q1", "cat")] [("c1", "DOC1")] 1 1
      = Except.ok ([("q1_DOC1.pdf_0", ⟨"cat", "DOC1", [c10text], 1⟩)], [])
    ∧ 150 < specWhitespaceTokenCount [c10text] := by
  exact ⟨rfl, by decide⟩

theorem mem_dictKeys_pySet {β : Type} (d : List (String × β)) (k : String) (v : β) (x : String) :
    x ∈ dictKeys (pySet d k v) ↔ x = k ∨ x ∈ dictKeys d := by
  unfold pySet dictKeys
  by_cases h : (d.find? (fun p => p.1 == k)).isSome
  · simp only [h, if_true, List.map_map, List.mem_map, Function.comp_apply]
    constructor
    · rintro ⟨p, hp, hpx⟩
      by_cases hpk : (p.1 == k) = true
      · rw [if_pos hpk] at hpx
        exact Or.inl hpx.symm
      · rw [if_neg hpk] at hpx
        exact Or.inr ⟨p, hp, hpx⟩
    · rintro (rfl | ⟨p, hp, hpx⟩)
      · rw [List.find?_isSome] at h
        obtain ⟨p0, hp0, hpk0⟩ := h
        exact ⟨p0, hp0, by rw [if_pos hpk0]⟩
      · by_cases hpk : (p.1 == k) = true
        · refine ⟨p, hp, ?_⟩
          rw [if_pos hpk]
          show k = x
          rw [← beq_iff_eq.mp hpk]
          exact hpx
        · refine ⟨p, hp, ?_⟩
          rw [if_neg hpk]
          exact hpx
  · simp only [h, Bool.false_eq_true, if_false, List.map_append, List.mem_append,
      List.mem_map]
    simp [dictKeys]
    tauto

theorem mem_dictKeys_pyMerge {β : Type} (db : List (String × β)) : ∀ (da : List (String × β))
    (x : String), x ∈ dictKeys (pyMerge da db) ↔ x ∈ dictKeys da ∨ x ∈ dictKeys db := by
  induction db with
  | nil =>
    intro da x
    simp [pyMerge, dictKeys]
  | cons p bs ih =>
    intro da x
    have hstep : pyMerge da (p :: bs) = pyMerge (pySet da p.1 p.2) bs := rfl
    rw [hstep, ih, mem_dictKeys_pySet]
    simp [dictKeys]
    tauto

theorem mem_keys_tts_train {β : Type} (pick : Pick) (data : List (String × β)) (frac : ℚ)
    (x : String) : x ∈ dictKeys (train_test_split pick data frac).1
      ↔ x ∈ dictKeys data
        ∧ x ∈ pick (dictKeys data) (pyRound (natMulRat data.length frac)).toNat := by
  unfold train_test_split dictKeys
  simp only [List.mem_map, List.mem_filter]
  constructor
  · rintro ⟨p, ⟨hp, hc⟩, rfl⟩
    refine ⟨⟨p, hp, rfl⟩, ?_⟩
    simpa using hc
  · rintro ⟨⟨p, hp, rfl⟩, hm⟩
    exact ⟨p, ⟨hp, by simpa using hm⟩, rfl⟩

theorem mem_keys_tts_test {β : Type} (pick : Pick) (data : List (String × β)) (frac : ℚ)
    (x : String) : x ∈ dictKeys (train_test_split pick data frac).2
      ↔ x ∈ dictKeys data
        ∧ x ∉ pick (dictKeys data) (pyRound (natMulRat data.length frac)).toNat := by
  unfold train_test_split dictKeys
  simp only [List.mem_map, List.mem_filter]
  constructor
  · rintro ⟨p, ⟨hp, hc⟩, rfl⟩
    refine ⟨⟨p, hp, rfl⟩, ?_⟩
    simpa using hc
  · rintro ⟨⟨p, hp, rfl⟩, hm⟩
    exact ⟨p, ⟨hp, by simpa using hm⟩, rfl⟩

theorem mem_train_mtdSplit (p1 p2 p3 : Pick) (cf icf nf : List (String × Found)) (frac : ℚ)
    (x : String) : x ∈ dictKeys (mtdSplit p1 p2 p3 cf icf nf frac).train ↔
      (x ∈ dictKeys cf ∧ x ∈ p1 (dictKeys cf) (pyRound (natMulRat cf.length frac)).toNat)
      ∨ (x ∈ dictKeys icf ∧ x ∈ p2 (dictKeys icf) (pyRound (natMulRat icf.length frac)).toNat)
      ∨ (x ∈ dictKeys nf ∧ x ∈ p3 (dictKeys nf) (pyRound (natMulRat nf.length frac)).toNat) := by
  show x ∈ dictKeys (pyMerge (pyMerge (train_test_split p1 cf frac).1
      (train_test_split p2 icf frac).1) (train_test_split p3 nf frac).1) ↔ _
  rw [mem_dictKeys_pyMerge, mem_dictKeys_pyMerge, mem_keys_tts_train, mem_keys_tts_train,
    mem_keys_tts_train]
  tauto

theorem mem_test_mtdSplit (p1 p2 p3 : Pick) (cf icf nf : List (String × Found)) (frac : ℚ)
    (x : String) : x ∈ dictKeys (mtdSplit p1 p2 p3 cf icf nf frac).test ↔
      (x ∈ dictKeys cf ∧ x ∉ p1 (dictKeys cf) (pyRound (natMulRat cf.length frac)).toNat)
      ∨ (x ∈ dictKeys icf ∧ x ∉ p2 (dictKeys icf) (pyRound (natMulRat icf.length frac)).toNat)
      ∨ (x ∈ dictKeys nf ∧ x ∉ p3 (dictKeys nf) (pyRound (natMulRat nf.length frac)).toNat) := by
  show x ∈ dictKeys (pyMerge (pyMerge (train_test_split p1 cf frac).2
      (train_test_split p2 icf frac).2) (train_test_split p3 nf frac).2) ↔ _
  rw [mem_dictKeys_pyMerge, mem_dictKeys_pyMerge, mem_keys_tts_test, mem_keys_tts_test,
    mem_keys_tts_test]
  tauto

/-- Claim C1 amended: every `train_test_split` call partitions its input
dict's key set into the train and test key sets (disjoint, union the
whole); the merged train/test key sets of a run always cover exactly the
union of the three per-label found key sets; and the merged train and
test key sets are disjoint provided the three per-label found key sets
are pairwise disjoint (without that proviso disjointness can fail — see
the counterexample). -/
theorem claim_C1 (cf icf nf : List (String × Found)) (frac : ℚ) (p1 p2 p3 : Pick) :
    (∀ (d : List (String × Found)) (pick : Pick),
      keysF (train_test_split pick d frac).1 ∩ keysF (train_test_split pick d frac).2 = ∅
      ∧ keysF (train_test_split pick d frac).1 ∪ keysF (train_test_split pick d frac).2
          = keysF d)
    ∧ keysF (mtdSplit p1 p2 p3 cf icf nf frac).train
        ∪ keysF (mtdSplit p1 p2 p3 cf icf nf frac).test
      = keysF cf ∪ keysF icf ∪ keysF nf
    ∧ ((∀ x, x ∈ dictKeys cf → x ∉ dictKeys icf) →
       (∀ x, x ∈ dictKeys cf → x ∉ dictKeys nf) →
       (∀ x, x ∈ dictKeys icf → x ∉ dictKeys nf) →
       keysF (mtdSplit p1 p2 p3 cf icf nf frac).train
         ∩ keysF (mtdSplit p1 p2 p3 cf icf nf frac).test = ∅) := by
  refine ⟨?_, ?_, ?_⟩
  · intro d pick
    constructor
    · ext x
      simp only [keysF, Finset.mem_inter, List.mem_toFinset, Finset.not_mem_empty, iff_false]
      rintro ⟨hx1, hx2⟩
      rw [mem_keys_tts_train] at hx1
      rw [mem_keys_tts_test] at hx2
      tauto
    · ext x
      simp only [keysF, Finset.mem_union, List.mem_toFinset]
      rw [mem_keys_tts_train, mem_keys_tts_test]
      constructor
      · intro hx
        tauto
      · intro hx
        by_cases ha : x ∈ pick (dictKeys d) (pyRound (natMulRat d.length frac)).toNat
        · tauto
        · tauto
  · ext x
    simp only [keysF, Finset.mem_union, List.mem_toFinset]
    rw [mem_train_mtdSplit, mem_test_mtdSplit]
    constructor
    · intro hx
      tauto
    · intro hx
      by_cases ha : x ∈ p1 (dictKeys cf) (pyRound (natMulRat cf.length frac)).toNat
      · by_cases hb : x ∈ p2 (dictKeys icf) (pyRound (natMulRat icf.length frac)).toNat
        · by_cases hc : x ∈ p3 (dictKeys nf) (pyRound (natMulRat nf.length frac)).toNat
          · tauto
          · tauto
        · by_cases hc : x ∈ p3 (dictKeys nf) (pyRound (natMulRat nf.length frac)).toNat
          · tauto
          · tauto
      · by_cases hb : x ∈ p2 (dictKeys icf) (pyRound (natMulRat icf.length frac)).toNat
        · by_cases hc : x ∈ p3 (dictKeys nf) (pyRound (natMulRat nf.length frac)).toNat
          · tauto
          · tauto
        · by_cases hc : x ∈ p3 (dictKeys nf) (pyRound (natMulRat nf.length frac)).toNat
          · tauto
          · tauto
  · intro h1 h2 h3
    ext x
    simp only [keysF, Finset.mem_inter, List.mem_toFinset, Finset.not_mem_empty, iff_false]
    rintro ⟨hts, hte⟩
    rw [mem_train_mtdSplit] at hts
    rw [mem_test_mtdSplit] at hte
    have hc1 := h1 x
    have hc2 := h2 x
    have hc3 := h3 x
    tauto

/-- Claim C1 witness: a concrete run — one per-label split partitions its
dict, the merged union equality holds, and with the pairwise-disjointness
provisos discharged the merged train/test key sets are disjoint. -/
theorem claim_C1_witness :
    (keysF (train_test_split (fun ks n => ks.take n) [("a", (⟨"q", "d", [], 1⟩ : Found))]
          (mkRat 1 2)).1
        ∩ keysF (train_test_split (fun ks n => ks.take n) [("a", (⟨"q", "d", [], 1⟩ : Found))]
          (mkRat 1 2)).2 = ∅
      ∧ keysF (train_test_split (fun ks n => ks.take n) [("a", (⟨"q", "d", [], 1⟩ : Found))]
          (mkRat 1 2)).1
        ∪ keysF (train_test_split (fun ks n => ks.take n) [("a", (⟨"q", "d", [], 1⟩ : Found))]
          (mkRat 1 2)).2 = keysF [("a", (⟨"q", "d", [], 1⟩ : Found))])
    ∧ keysF (mtdSplit (fun ks n => ks.take n) (fun ks n => ks.take n) (fun ks n => ks.take n)
          [("a", ⟨"q", "d", [], 1⟩)] [] [("b", ⟨"q", "d", [], 0⟩)] (mkRat 1 2)).train
        ∪ keysF (mtdSplit (fun ks n => ks.take n) (fun ks n => ks.take n) (fun ks n => ks.take n)
          [("a", ⟨"q", "d", [], 1⟩)] [] [("b", ⟨"q", "d", [], 0⟩)] (mkRat 1 2)).test
        = keysF [("a", (⟨"q", "d", [], 1⟩ : Found))] ∪ keysF ([] : List (String × Found))
          ∪ keysF [("b", (⟨"q", "d", [], 0⟩ : Found))]
    ∧ keysF (mtdSplit (fun ks n => ks.take n) (fun ks n => ks.take n) (fun ks n => ks.take n)
          [("a", ⟨"q", "d", [], 1⟩)] [] [("b", ⟨"q", "d", [], 0⟩)] (mkRat 1 2)).train
        ∩ keysF (mtdSplit (fun ks n => ks.take n) (fun ks n => ks.take n) (fun ks n => ks.take n)
          [("a", ⟨"q", "d", [], 1⟩)] [] [("b", ⟨"q", "d", [], 0⟩)] (mkRat 1 2)).test = ∅ := by
  have h := claim_C1 [("a", ⟨"q", "d", [], 1⟩)] [] [("b", ⟨"q", "d", [], 0⟩)] (mkRat 1 2)
    (fun ks n => ks.take n) (fun ks n => ks.take n) (fun ks n => ks.take n)
  exact ⟨h.1 [("a", ⟨"q", "d", [], 1⟩)] (fun ks n => ks.take n), h.2.1,
    h.2.2 (by decide) (by decide) (by decide)⟩

theorem rankPairs_text_mem {α : Type} (texts : List α) (ids : List String) :
    ∀ (pairs : List (Nat × ℚ)) (out : List (RankRec α)),
    rankPairs texts ids pairs = Except.ok out → ∀ r ∈ out, r.text ∈ texts := by
  intro pairs
  induction pairs with
  | nil =>
    intro out hout r hr
    rw [rankPairs] at hout
    cases hout
    cases hr
  | cons pr rest ih =>
    intro out hout r hr
    rw [rankPairs] at hout
    cases hid : ids[pr.1]? with
    | none => rw [hid] at hout; cases hout
    | some i0 =>
      cases htx : texts[pr.1]? with
      | none => rw [hid, htx] at hout; cases hout
      | some t0 =>
        rw [hid, htx] at hout
        cases hrec : rankPairs texts ids rest with
        | error e => rw [hrec] at hout; cases hout
        | ok out0 =>
          rw [hrec] at hout
          cases hout
          rcases List.mem_cons.mp hr with rfl | hr0
          · exact List.getElem?_mem htx
          · exact ih out0 hrec r hr0

theorem collectCands_snd_len : ∀ (rows : List Row) (cs : List (String × Tok)),
    collectCands rows = Except.ok cs → ∀ c ∈ cs, c.2.length ≤ 150 := by
  intro rows
  induction rows with
  | nil =>
    intro cs hcs c hc
    rw [collectCands] at hcs
    cases hcs
    cases hc
  | cons r rest ih =>
    intro cs hcs c hc
    rw [collectCands] at hcs
    cases ht : r.text with
    | none => rw [ht] at hcs; cases hcs
    | some t =>
      rw [ht] at hcs
      cases hrec : collectCands rest with
      | error e => rw [hrec] at hcs; cases hcs
      | ok cs0 =>
        rw [hrec] at hcs
        cases hcs
        rcases List.mem_cons.mp hc with rfl | hc0
        · simp
        · exact ih cs0 hrec c hc0

theorem gbp_text_len (data : List Row) (q d : String) (sim : Sim Tok) (n : Nat)
    (out : List (RankRec Tok)) (hout : get_best_paragraphs data q d sim n = Except.ok out) :
    ∀ r ∈ out, r.text.length ≤ 150 := by
  intro r hr
  rw [get_best_paragraphs] at hout
  cases hc : collectCands ((data.filter (fun r0 => rowDocId r0 == d)).take 20) with
  | error e => rw [hc] at hout; cases hout
  | ok cands =>
    rw [hc] at hout
    cases hout
    have hpars : ∀ t0 ∈ cands.map Prod.snd, List.length t0 ≤ 150 := by
      intro t0 ht0
      obtain ⟨c, hcm, hct⟩ := List.mem_map.mp ht0
      rw [← hct]
      exact collectCands_snd_len _ cands hc c hcm
    have hr0 := List.mem_of_mem_take hr
    by_cases h1 : 1 < (cands.map Prod.fst).length
    · rw [if_pos h1] at hr0
      cases hrr : re_rank sim q (cands.map Prod.snd) (cands.map Prod.fst) with
      | error e =>
        rw [hrr] at hr0
        cases hr0
      | ok rr =>
        rw [hrr] at hr0
        rw [re_rank] at hrr
        cases hsim : sim q (cands.map Prod.snd) with
        | error e => rw [hsim] at hrr; cases hrr
        | ok pairs =>
          rw [hsim] at hrr
          exact hpars r.text (rankPairs_text_mem _ _ pairs rr hrr r hr0)
    · rw [if_neg h1] at hr0
      by_cases h2 : ((cands.map Prod.fst).length == 1) = true
      · rw [if_pos h2] at hr0
        have hlen : cands.length = 1 := by
          have h3 := beq_iff_eq.mp h2
          simpa using h3
        obtain ⟨c, rfl⟩ := List.length_eq_one.mp hlen
        rcases List.mem_singleton.mp hr0 with rfl
        exact hpars _ (by simp)
      · rw [if_neg h2] at hr0
        cases hr0

theorem pySet_val {β : Type} (P : β → Prop) (d : List (String × β)) (k : String) (v : β)
    (hd : ∀ p ∈ d, P p.2) (hv : P v) : ∀ p ∈ pySet d k v, P p.2 := by
  intro p hp
  unfold pySet at hp
  by_cases h : (d.find? (fun p0 => p0.1 == k)).isSome
  · rw [if_pos h] at hp
    obtain ⟨p0, hp0, hpe⟩ := List.mem_map.mp hp
    by_cases hpk : (p0.1 == k) = true
    · rw [if_pos hpk] at hpe
      rw [← hpe]
      exact hv
    · rw [if_neg hpk] at hpe
      rw [← hpe]
      exact hd p0 hp0
  · rw [if_neg h] at hp
    rcases List.mem_append.mp hp with hp1 | hp2
    · exact hd p hp1
    · rcases List.mem_singleton.mp hp2 with rfl
      exact hv

theorem cmInsert_para (i q d : String) (lab : Int) :
    ∀ (ms : List (RankRec Tok)) (fd : List (String × Found)),
    (∀ p ∈ fd, p.2.paragraph.length ≤ 150) → (∀ m ∈ ms, m.text.length ≤ 150) →
    ∀ p ∈ cmInsert i q d lab fd ms, p.2.paragraph.length ≤ 150 := by
  intro ms
  induction ms with
  | nil =>
    intro fd hfd _ p hp
    exact hfd p hp
  | cons m rest ih =>
    intro fd hfd hms p hp
    have hstep : cmInsert i q d lab fd (m :: rest)
        = cmInsert i q d lab (pySet fd (i ++ "_" ++ m.id) ⟨q, d, m.text.take 400, lab⟩) rest := rfl
    rw [hstep] at hp
    refine ih _ ?_ (fun m0 hm0 => hms m0 (List.mem_cons_of_mem m hm0)) p hp
    refine pySet_val (fun v => v.paragraph.length ≤ 150) fd _ _ hfd ?_
    have hm := hms m (List.mem_cons_self m rest)
    show (m.text.take 400).length ≤ 150
    rw [List.length_take]
    omega

theorem cmDocs_para (data : List Row) (sim : Sim Tok) (nm : Nat)
    (collection : List (String × String)) (lab : Int) (i q : String) :
    ∀ (ks : List String) (fd : List (String × Found)) (nf : List (String × NotFound))
    (res : List (String × Found) × List (String × NotFound)),
    (∀ p ∈ fd, p.2.paragraph.length ≤ 150) →
    cmDocs data sim nm collection lab i q ks fd nf = Except.ok res →
    ∀ p ∈ res.1, p.2.paragraph.length ≤ 150 := by
  intro ks
  induction ks with
  | nil =>
    intro fd nf res hfd hres
    rw [cmDocs] at hres
    cases hres
    exact hfd
  | cons k rest ih =>
    intro fd nf res hfd hres
    rw [cmDocs] at hres
    split at hres
    · cases hres
    · rename_i doc hdoc
      split at hres
      · exact ih fd _ res hfd hres
      · rename_i ms hb
        refine ih _ nf res ?_ hres
        exact cmInsert_para i q doc lab ms fd hfd (gbp_text_len data q doc sim nm ms hb)

theorem cmRels_para (data : List Row) (sim : Sim Tok) (nm : Nat)
    (queries collection : List (String × String)) (lab : Int) :
    ∀ (rels : List (String × List String)) (fd : List (String × Found))
    (nf : List (String × NotFound)) (res : List (String × Found) × List (String × NotFound)),
    (∀ p ∈ fd, p.2.paragraph.length ≤ 150) →
    cmRels data sim nm queries collection lab rels fd nf = Except.ok res →
    ∀ p ∈ res.1, p.2.paragraph.length ≤ 150 := by
  intro rels
  induction rels with
  | nil =>
    intro fd nf res hfd hres
    rw [cmRels] at hres
    cases hres
    exact hfd
  | cons rel rest ih =>
    intro fd nf res hfd hres
    rw [cmRels] at hres
    split at hres
    · cases hres
    · rename_i q hq
      split at hres
      · cases hres
      · rename_i r0 hd
        exact ih r0.1 r0.2 res
          (cmDocs_para data sim nm collection lab rel.1 q rel.2 fd nf r0 hfd hd) hres

theorem gnpGo_para (data : List Row) (q d : String) :
    ∀ (l : List String) (m : NegRec), m ∈ gnpGo data q d l → m.paragraph.length ≤ 150 := by
  intro l
  induction l with
  | nil =>
    intro m hm
    cases hm
  | cons parId rest ih =>
    intro m hm
    rw [gnpGo] at hm
    split at hm
    · cases hm
    · split at hm
      · cases hm
      · rename_i r hf t ht
        rcases List.mem_append.mp hm with hm1 | hm2
        · by_cases hc : check_no_match d parId = true
          · rw [if_pos hc] at hm1
            rcases List.mem_singleton.mp hm1 with rfl
            show (t.take 150).length ≤ 150
            rw [List.length_take]
            omega
          · rw [if_neg hc] at hm1
            cases hm1
        · exact ih m hm2

theorem gnp_para (data : List Row) (q d : String) (retrRes : Except Unit (List String)) :
    ∀ m ∈ get_negative_paragraphs data q d retrRes, m.paragraph.length ≤ 150 := by
  intro m hm
  unfold get_negative_paragraphs at hm
  cases retrRes with
  | error e => cases hm
  | ok parIds => exact gnpGo_para data q d parIds m hm

theorem cnsInsert_para (i q doc : String) :
    ∀ (nm : List NegRec) (fd : List (String × Found)),
    (∀ p ∈ fd, p.2.paragraph.length ≤ 150) → (∀ m ∈ nm, m.paragraph.length ≤ 150) →
    ∀ p ∈ nm.foldl
        (fun d0 m0 => pySet d0 (i ++ "_" ++ m0.doc) ⟨q, doc, m0.paragraph.take 400, 0⟩) fd,
      p.2.paragraph.length ≤ 150 := by
  intro nm
  induction nm with
  | nil =>
    intro fd hfd _ p hp
    exact hfd p hp
  | cons m rest ih =>
    intro fd hfd hms p hp
    rw [List.foldl_cons] at hp
    refine ih _ ?_ (fun m0 hm0 => hms m0 (List.mem_cons_of_mem m hm0)) p hp
    refine pySet_val (fun v => v.paragraph.length ≤ 150) fd _ _ hfd ?_
    have hm := hms m (List.mem_cons_self m rest)
    show (m.paragraph.take 400).length ≤ 150
    rw [List.length_take]
    omega

theorem cnsDocs_para (data : List Row) (retr : Retr) (nr : Nat)
    (collection : List (String × String)) (i q : String) :
    ∀ (ks : List String) (fd : List (String × Found)) (nf : List (String × NotFound))
    (res : List (String × Found) × List (String × NotFound)),
    (∀ p ∈ fd, p.2.paragraph.length ≤ 150) →
    cnsDocs data retr nr collection i q ks fd nf = Except.ok res →
    ∀ p ∈ res.1, p.2.paragraph.length ≤ 150 := by
  intro ks
  induction ks with
  | nil =>
    intro fd nf res hfd hres
    rw [cnsDocs] at hres
    cases hres
    exact hfd
  | cons k rest ih =>
    intro fd nf res hfd hres
    rw [cnsDocs] at hres
    split at hres
    · cases hres
    · rename_i doc hdoc
      refine ih _ nf res ?_ hres
      exact cnsInsert_para i q doc (get_negative_paragraphs data q k (retr q nr)) fd hfd
        (gnp_para data q k (retr q nr))

theorem cnsRels_para (data : List Row) (retr : Retr) (nr : Nat)
    (queries collection : List (String × String)) :
    ∀ (rels : List (String × List String)) (fd : List (String × Found))
    (nf : List (String × NotFound)) (res : List (String × Found) × List (String × NotFound)),
    (∀ p ∈ fd, p.2.paragraph.length ≤ 150) →
    cnsRels data retr nr queries collection rels fd nf = Except.ok res →
    ∀ p ∈ res.1, p.2.paragraph.length ≤ 150 := by
  intro rels
  induction rels with
  | nil =>
    intro fd nf res hfd hres
    rw [cnsRels] at hres
    cases hres
    exact hfd
  | cons rel rest ih =>
    intro fd nf res hfd hres
    rw [cnsRels] at hres
    split at hres
    · cases hres
    · rename_i q hq
      split at hres
      · cases hres
      · rename_i r0 hd
        exact ih r0.1 r0.2 res
          (cnsDocs_para data retr nr collection rel.1 q rel.2 fd nf r0 hfd hd) hres

/-- Claim C10 amended: every candidate paragraph is truncated to its first
150 space-delimited chunks (`split(' ')`) before reranking and storage, so
every stored training example paragraph — from positive/confirmed-negative
mining and from neutral sampling alike — has at most 150 space-delimited
chunks, and the later 400-chunk cap never truncates further; counted in
whitespace-delimited tokens the bound can fail (see the counterexample). -/
theorem claim_C10 (data : List Row) (sim : Sim Tok) (retr : Retr)
    (rels rels2 : List (String × List String)) (queries collection : List (String × String))
    (lab : Int) (nm nr : Nat) (fd fd2 : List (String × Found))
    (nf nf2 : List (String × NotFound))
    (h1 : collect_matches data sim rels queries collection lab nm = Except.ok (fd, nf))
    (h2 : collect_negative_samples data retr nr rels2 queries collection
        = Except.ok (fd2, nf2)) :
    (∀ p ∈ fd, p.2.paragraph.length ≤ 150) ∧ (∀ p ∈ fd2, p.2.paragraph.length ≤ 150) := by
  constructor
  · exact cmRels_para data sim nm queries collection lab rels [] [] (fd, nf)
      (by intro p hp; cases hp) h1
  · exact cnsRels_para data retr nr queries collection rels2 [] [] (fd2, nf2)
      (by intro p hp; cases hp) h2

/-- Claim C10 witness: concrete positive-mining and neutral-sampling runs,
with the stored paragraph bounds evaluated. -/
theorem claim_C10_witness :
    collect_matches [⟨"DOC1.pdf_0", some ["hello"]⟩, ⟨"DOC2.pdf_0", some ["bye"]⟩]
      (fun _ _ => Except.ok []) [("q1", ["c1"])] [("q1", "cat")] [("c1", "DOC1")] 1 1
      = Except.ok ([("q1_DOC1.pdf_0", ⟨"cat", "DOC1", ["hello"], 1⟩)], [])
    ∧ collect_negative_samples [⟨"DOC1.pdf_0", some ["hello"]⟩, ⟨"DOC2.pdf_0", some ["bye"]⟩]
      (fun _ _ => Except.ok ["DOC2.pdf_0"]) 20 [("q1", ["c1"])] [("q1", "cat")] [("c1", "DOC1")]
      = Except.ok ([("q1_DOC2.pdf_0", ⟨"cat", "DOC1", ["bye"], 0⟩)], [])
    ∧ (∀ p ∈ [("q1_DOC1.pdf_0", (⟨"cat", "DOC1", ["hello"], 1⟩ : Found))],
        p.2.paragraph.length ≤ 150)
    ∧ (∀ p ∈ [("q1_DOC2.pdf_0", (⟨"cat", "DOC1", ["bye"], 0⟩ : Found))],
        p.2.paragraph.length ≤ 150) := by
  have h := claim_C10 [⟨"DOC1.pdf_0", some ["hello"]⟩, ⟨"DOC2.pdf_0", some ["bye"]⟩]
    (fun _ _ => Except.ok []) (fun _ _ => Except.ok ["DOC2.pdf_0"]) [("q1", ["c1"])]
    [("q1", ["c1"])] [("q1", "cat")] [("c1", "DOC1")] 1 1 20
    [("q1_DOC1.pdf_0", ⟨"cat", "DOC1", ["hello"], 1⟩)]
    [("q1_DOC2.pdf_0", ⟨"cat", "DOC1", ["bye"], 0⟩)] [] [] rfl rfl
  exact ⟨rfl, rfl, h.1, h.2⟩

theorem zip_getElem_opt {γ δ : Type} (l1 : List γ) (l2 : List δ) (j : Nat)
    (h1 : j < l1.length) (h2 : j < l2.length) :
    (l1.zip l2)[j]? = some (l1[j], l2[j]) := by
  have hz : j < (l1.zip l2).length := by
    rw [List.length_zip]
    omega
  rw [List.getElem?_eq_getElem hz]
  rw [List.getElem_zip]

theorem range_filterMap_getElem {β : Type} (l : List β) :
    (List.range l.length).filterMap (fun j => l[j]?) = l := by
  induction l with
  | nil => rfl
  | cons a t ih =>
    rw [List.length_cons, List.range_succ_eq_map, List.filterMap_cons, List.filterMap_map]
    rw [List.getElem?_cons_zero]
    have hcomp : ((fun j => (a :: t)[j]?) ∘ Nat.succ) = (fun j => t[j]?) := by
      funext j
      simp
    rw [hcomp, ih]

theorem rankPairs_ok {α : Type} (texts : List α) (ids : List String) :
    ∀ (pairs : List (Nat × ℚ)),
    (∀ pr ∈ pairs, pr.1 < ids.length ∧ pr.1 < texts.length) →
    ∃ out : List (RankRec α), rankPairs texts ids pairs = Except.ok out
      ∧ out.map (fun r => (r.id, r.text))
          = (pairs.map Prod.fst).filterMap (fun j => (ids.zip texts)[j]?)
      ∧ out.map RankRec.score = (pairs.map Prod.snd).map some
      ∧ out.length = pairs.length := by
  intro pairs
  induction pairs with
  | nil =>
    intro _
    exact ⟨[], rfl, rfl, rfl, rfl⟩
  | cons pr rest ih =>
    intro h
    obtain ⟨h1, h2⟩ := h pr (List.mem_cons_self pr rest)
    obtain ⟨out0, hout, hm1, hm2, hlen⟩ := ih (fun x hx => h x (List.mem_cons_of_mem pr hx))
    refine ⟨⟨some pr.2, ids[pr.1], texts[pr.1]⟩ :: out0, ?_, ?_, ?_, ?_⟩
    · rw [rankPairs, List.getElem?_eq_getElem h1, List.getElem?_eq_getElem h2, hout]
      rfl
    · rw [List.map_cons, List.map_cons, List.filterMap_cons, zip_getElem_opt ids texts pr.1 h1 h2]
      rw [hm1]
    · rw [List.map_cons, List.map_cons, List.map_cons, hm2]
    · rw [List.length_cons, List.length_cons, hlen]

/-- Claim C5: under the similarity provider's contract (one (index, score)
pair per candidate, indices a permutation of the candidate positions,
scores ranked non-increasingly), `re_rank(query, texts, ids)` over `n`
candidates returns exactly `n` records whose (id, text) pairs are a
permutation of the input pairs and whose scores are non-increasing in
output order. -/
theorem claim_C5 (α : Type) (sim : Sim α) (query : String) (texts : List α)
    (ids : List String) (n : Nat) (pairs : List (Nat × ℚ))
    (hlt : texts.length = n) (hli : ids.length = n)
    (hsim : sim query texts = Except.ok pairs)
    (hperm : (pairs.map Prod.fst).Perm (List.range n))
    (hsorted : List.Chain' (fun a b => b ≤ a) (pairs.map Prod.snd)) :
    ∃ out : List (RankRec α),
      re_rank sim query texts ids = Except.ok out
      ∧ out.length = n
      ∧ (out.map (fun r => (r.id, r.text))).Perm (ids.zip texts)
      ∧ out.map RankRec.score = (pairs.map Prod.snd).map some
      ∧ List.Chain' (fun a b => b ≤ a) (pairs.map Prod.snd) := by
  have hbound : ∀ pr ∈ pairs, pr.1 < ids.length ∧ pr.1 < texts.length := by
    intro pr hpr
    have hmem : pr.1 ∈ pairs.map Prod.fst := List.mem_map_of_mem Prod.fst hpr
    have hrange : pr.1 ∈ List.range n := hperm.mem_iff.mp hmem
    have hn := List.mem_range.mp hrange
    omega
  obtain ⟨out, hout, hm1, hm2, hlen⟩ := rankPairs_ok texts ids pairs hbound
  have hzlen : (ids.zip texts).length = n := by
    rw [List.length_zip, hlt, hli]
    omega
  refine ⟨out, ?_, ?_, ?_, hm2, hsorted⟩
  · rw [re_rank, hsim]
    exact hout
  · have hplen : (pairs.map Prod.fst).length = (List.range n).length := hperm.length_eq
    rw [hlen]
    rw [List.length_map, List.length_range] at hplen
    exact hplen
  · rw [hm1]
    have hfm := hperm.filterMap (fun j => (ids.zip texts)[j]?)
    refine hfm.trans ?_
    have hrw : List.range n = List.range (ids.zip texts).length := by rw [hzlen]
    rw [hrw, range_filterMap_getElem]

/-- Claim C5 witness: two candidates, provider ranks the second first. -/
theorem claim_C5_witness :
    ∃ out : List (RankRec Nat),
      re_rank (fun _ _ => Except.ok [(1, 5), (0, 3)]) "q" [10, 20] ["a", "b"] = Except.ok out
      ∧ out.length = 2
      ∧ (out.map (fun r => (r.id, r.text))).Perm (["a", "b"].zip [10, 20])
      ∧ out.map RankRec.score = ([(1, (5 : ℚ)), (0, 3)].map Prod.snd).map some
      ∧ List.Chain' (fun a b => b ≤ a) ([(1, (5 : ℚ)), (0, 3)].map Prod.snd) := by
  exact claim_C5 Nat (fun _ _ => Except.ok [(1, 5), (0, 3)]) "q" [10, 20] ["a", "b"] 2
    [(1, 5), (0, 3)] rfl rfl rfl (by decide) (by norm_num [List.chain'_cons])

end GC
